import Mathlib

/-!
Verification development for the voucher/promotion order-discount engine.

The embedding translates the discount engine of the repository:
`OrdersService` (apply voucher/promotion, remove discount, cancel order),
`VouchersService` and `PromotionsService` (lookup, validation, optimistic
usage increment, unconditional usage decrement, admin update and soft
delete), and the `OrdersController` voucher-then-promotion resolution.

Monetary values are exact rationals; `toFixed2` models the 2-decimal
rounding applied when a value is persisted (`new Prisma.Decimal(x.toFixed(2))`),
idealized as round-half-up on the exact value.  The Prisma stores are lists
of records; a conditional update `where { id, version }` succeeds exactly
when a record matches both fields, and a `$transaction` callback's writes
through the transaction client are discarded when the callback throws,
while writes issued through a service's own client persist immediately.
-/

namespace VoucherApi

/-- Monetary amounts, as exact decimals embedded in `ℚ`. -/
abbrev Money := ℚ

/-- Rounding to two decimal places at persistence time
(`new Prisma.Decimal(x.toFixed(2))`), as round-half-up on the exact value. -/
def toFixed2 (q : Money) : Money := (⌊q * 100 + 1/2⌋ : ℤ) / 100

/-- A value lies on the cent grid (an integer number of cents). -/
def IsCents (q : Money) : Prop := ∃ n : ℤ, q = n / 100

/-- JavaScript's `toUpperCase`, applied per character (codes are ASCII). -/
def upper (s : String) : String := ⟨s.data.map Char.toUpper⟩

/-- JavaScript's `toLowerCase`, applied per character. -/
def lower (s : String) : String := ⟨s.data.map Char.toLower⟩

/-- Prisma enum `DiscountType`. -/
inductive DiscountType
  | PERCENTAGE
  | FIXED
deriving DecidableEq, Repr

/-- The `discountType` discriminator stored on an `OrderDiscount` row. -/
inductive RecordType
  | VOUCHER
  | PROMOTION
deriving DecidableEq, Repr

/-- Prisma enum `OrderStatus`. -/
inductive OrderStatus
  | PENDING
  | CONFIRMED
  | CANCELLED
deriving DecidableEq, Repr

/-- Error kinds thrown by the services (`NotFoundException`,
`BadRequestException` and `ConflictException` instances, distinguished by
their message). -/
inductive ApiError
  | notFound
  | invalidState
  | duplicateCode
  | inactive
  | expired
  | usageLimitReached
  | belowMinOrder
  | noEligibleItems
  | capReached
  | versionConflict
  | invalidInput
  | cannotDeleteUsed
deriving DecidableEq, Repr

/-- A `Voucher` row.  Timestamps are integers (epoch instants). -/
structure Voucher where
  id : String
  code : String
  discountType : DiscountType
  discountValue : Money
  expirationDate : Int
  usageLimit : Nat
  currentUsage : Nat
  minOrderValue : Option Money
  isActive : Bool
  version : Nat
  deletedAt : Option Int
deriving DecidableEq, Repr

/-- A `Promotion` row. -/
structure Promotion where
  id : String
  code : String
  discountType : DiscountType
  discountValue : Money
  expirationDate : Int
  usageLimit : Nat
  currentUsage : Nat
  eligibleCategories : List String
  eligibleItems : List String
  isActive : Bool
  version : Nat
  deletedAt : Option Int
deriving DecidableEq, Repr

/-- An `OrderItem` row (`lineTotal` is derived as `unitPrice × quantity`
at creation and never read by the discount engine, so it is not carried). -/
structure OrderItem where
  productId : String
  productName : String
  category : String
  unitPrice : Money
  quantity : Nat
deriving DecidableEq, Repr

/-- An `OrderDiscount` row. -/
structure OrderDiscount where
  discountType : RecordType
  discountCode : String
  discountAmount : Money
deriving DecidableEq, Repr

/-- An `Order` row together with its owned `items` and `discounts`
collections (the engine always loads the order with both included). -/
structure Order where
  customerId : String
  subtotal : Money
  totalDiscount : Money
  finalTotal : Money
  status : OrderStatus
  items : List OrderItem
  discounts : List OrderDiscount
deriving DecidableEq, Repr

/-- `OrdersService.calculateVoucherDiscount`. -/
def calculateVoucherDiscount (voucher : Voucher) (subtotal : Money) : Money :=
  let discountValue := voucher.discountValue
  match voucher.discountType with
  | .PERCENTAGE => subtotal * discountValue / 100
  | .FIXED => min discountValue subtotal

/-- `OrdersService.enforceDiscountCap`: cap the proposed discount so the
cumulative total never exceeds 50% of the subtotal. -/
def enforceDiscountCap (subtotal currentTotalDiscount newDiscountAmount : Money) :
    Except ApiError Money :=
  let maxAllowedDiscount := subtotal * (1/2)
  let proposedTotalDiscount := currentTotalDiscount + newDiscountAmount
  if proposedTotalDiscount > maxAllowedDiscount then
    let cappedNewDiscount := maxAllowedDiscount - currentTotalDiscount
    if cappedNewDiscount ≤ 0 then .error .capReached
    else .ok cappedNewDiscount
  else .ok newDiscountAmount

/-- `OrdersService.calculatePromotionDiscount` over the eligible items. -/
def calculatePromotionDiscount (promotion : Promotion) (eligibleItems : List OrderItem) :
    Money :=
  let discountValue := promotion.discountValue
  let eligibleTotal :=
    eligibleItems.foldl (fun sum item => sum + item.unitPrice * (item.quantity : ℚ)) 0
  match promotion.discountType with
  | .PERCENTAGE => eligibleTotal * discountValue / 100
  | .FIXED =>
    eligibleItems.foldl
      (fun sum item =>
        sum + min (discountValue * (item.quantity : ℚ)) (item.unitPrice * (item.quantity : ℚ))) 0

/-- `PromotionsService.checkEligibility`: items matching by category
(case-insensitively) or by product id, with the source's emptiness guards. -/
def checkEligibility (promotion : Promotion) (orderItems : List OrderItem) :
    List OrderItem :=
  let eligibleCategories := promotion.eligibleCategories.map (fun cat => lower cat)
  let eligibleItemIds := promotion.eligibleItems
  orderItems.filter (fun item =>
    let matchesCategory :=
      decide (0 < eligibleCategories.length) && eligibleCategories.contains (lower item.category)
    let matchesItem :=
      decide (0 < eligibleItemIds.length) && eligibleItemIds.contains item.productId
    matchesCategory || matchesItem)

/-- `VouchersService.findOne`: case-insensitive code lookup excluding
soft-deleted rows. -/
def findVoucher (store : List Voucher) (code : String) : Option Voucher :=
  store.find? (fun v => v.code == upper code && v.deletedAt.isNone)

/-- `PromotionsService.findOne`. -/
def findPromotion (store : List Promotion) (code : String) : Option Promotion :=
  store.find? (fun p => p.code == upper code && p.deletedAt.isNone)

/-- The usability checks of `VouchersService.validateVoucher` (after the
lookup): active, unexpired, below the usage limit, and above the minimum
order value when one is set. -/
def validateVoucher (voucher : Voucher) (now : Int) (orderValue : Money) :
    Except ApiError Voucher :=
  if !voucher.isActive then .error .inactive
  else if voucher.expirationDate ≤ now then .error .expired
  else if voucher.usageLimit ≤ voucher.currentUsage then .error .usageLimitReached
  else
    match voucher.minOrderValue with
    | some minOrder =>
      if orderValue < minOrder then .error .belowMinOrder else .ok voucher
    | none => .ok voucher

/-- The usability checks of `PromotionsService.validatePromotion`. -/
def validatePromotion (promotion : Promotion) (now : Int) : Except ApiError Promotion :=
  if !promotion.isActive then .error .inactive
  else if promotion.expirationDate ≤ now then .error .expired
  else if promotion.usageLimit ≤ promotion.currentUsage then .error .usageLimitReached
  else .ok promotion

/-- `VouchersService.incrementUsage`: Prisma conditional update
`where { id, version }` setting `currentUsage += 1, version += 1`; when no
row matches (P2025) it surfaces as a `ConflictException`. -/
def incrementVoucherUsage (store : List Voucher) (id : String) (version : Nat) :
    Except ApiError (List Voucher) :=
  if store.any (fun v => v.id == id && v.version == version) then
    .ok (store.map (fun v =>
      if v.id == id && v.version == version then
        { v with currentUsage := v.currentUsage + 1, version := v.version + 1 }
      else v))
  else .error .versionConflict

/-- `PromotionsService.incrementUsage`. -/
def incrementPromotionUsage (store : List Promotion) (id : String) (version : Nat) :
    Except ApiError (List Promotion) :=
  if store.any (fun p => p.id == id && p.version == version) then
    .ok (store.map (fun p =>
      if p.id == id && p.version == version then
        { p with currentUsage := p.currentUsage + 1, version := p.version + 1 }
      else p))
  else .error .versionConflict

/-- `VouchersService.decrementUsage`: unconditional on version; a no-op when
`currentUsage` is already zero. -/
def decrementVoucherUsage (store : List Voucher) (id : String) :
    Except ApiError (List Voucher) :=
  match store.find? (fun v => v.id == id) with
  | none => .error .notFound
  | some voucher =>
    if voucher.currentUsage == 0 then .ok store
    else
      .ok (store.map (fun v =>
        if v.id == id then
          { v with currentUsage := v.currentUsage - 1, version := v.version + 1 }
        else v))

/-- `PromotionsService.decrementUsage`. -/
def decrementPromotionUsage (store : List Promotion) (id : String) :
    Except ApiError (List Promotion) :=
  match store.find? (fun p => p.id == id) with
  | none => .error .notFound
  | some promotion =>
    if promotion.currentUsage == 0 then .ok store
    else
      .ok (store.map (fun p =>
        if p.id == id then
          { p with currentUsage := p.currentUsage - 1, version := p.version + 1 }
        else p))

/-- The shared mutable state the engine operates on: the order under
consideration (the controller routes by order id; the embedding tracks the
one addressed order) and the two rule stores. -/
structure AppState where
  order : Order
  vouchers : List Voucher
  promotions : List Promotion
deriving DecidableEq, Repr

/-- The `$transaction` block of `OrdersService.applyVoucher`, run against the
voucher store as it stands at commit time.  The `orderDiscount.create` and
`order.update` statements go through the transaction client and are discarded
when the callback throws; `vouchersService.incrementUsage` is issued through
the service's own client but is the last statement of the callback, and a
failed conditional update matches zero rows and writes nothing — so the
error outcome leaves order and store exactly as they were. -/
def voucherTxCommit (order : Order) (voucherCode : String) (discountAmount : Money)
    (store : List Voucher) (ruleId : String) (expectedVersion : Nat) :
    (Order × List Voucher) × Option ApiError :=
  let record : OrderDiscount :=
    { discountType := .VOUCHER, discountCode := voucherCode,
      discountAmount := toFixed2 discountAmount }
  let newTotalDiscount := order.totalDiscount + discountAmount
  let newFinalTotal := order.subtotal - newTotalDiscount
  let updated :=
    { order with
      discounts := order.discounts ++ [record],
      totalDiscount := toFixed2 newTotalDiscount,
      finalTotal := toFixed2 newFinalTotal }
  match incrementVoucherUsage store ruleId expectedVersion with
  | .error e => ((order, store), some e)
  | .ok store' => ((updated, store'), none)

/-- The `$transaction` block of `OrdersService.applyPromotion`. -/
def promotionTxCommit (order : Order) (promotionCode : String) (discountAmount : Money)
    (store : List Promotion) (ruleId : String) (expectedVersion : Nat) :
    (Order × List Promotion) × Option ApiError :=
  let record : OrderDiscount :=
    { discountType := .PROMOTION, discountCode := promotionCode,
      discountAmount := toFixed2 discountAmount }
  let newTotalDiscount := order.totalDiscount + discountAmount
  let newFinalTotal := order.subtotal - newTotalDiscount
  let updated :=
    { order with
      discounts := order.discounts ++ [record],
      totalDiscount := toFixed2 newTotalDiscount,
      finalTotal := toFixed2 newFinalTotal }
  match incrementPromotionUsage store ruleId expectedVersion with
  | .error e => ((order, store), some e)
  | .ok store' => ((updated, store'), none)

/-- `OrdersService.applyVoucher`: ownership and status checks, duplicate
check, voucher lookup and validation, discount calculation, cap enforcement
and the transactional commit.  Every failing branch returns the state
unchanged (nothing was written before the transaction, and the transaction
aborts atomically as described at `voucherTxCommit`). -/
def applyVoucherStep (now : Int) (customerId code : String) (s : AppState) :
    AppState × Option ApiError :=
  if s.order.customerId ≠ customerId then (s, some .notFound)
  else if s.order.status ≠ OrderStatus.PENDING then (s, some .invalidState)
  else if s.order.discounts.any (fun d => d.discountCode == upper code) then
    (s, some .duplicateCode)
  else
    match findVoucher s.vouchers code with
    | none => (s, some .notFound)
    | some voucher =>
      let subtotal := s.order.subtotal
      match validateVoucher voucher now subtotal with
      | .error e => (s, some e)
      | .ok voucher =>
        let calculatedDiscount := calculateVoucherDiscount voucher subtotal
        let currentDiscount := s.order.totalDiscount
        match enforceDiscountCap subtotal currentDiscount calculatedDiscount with
        | .error e => (s, some e)
        | .ok discountAmount =>
          match voucherTxCommit s.order voucher.code discountAmount
              s.vouchers voucher.id voucher.version with
          | (_, some e) => (s, some e)
          | ((order', vouchers'), none) =>
            ({ s with order := order', vouchers := vouchers' }, none)

/-- `OrdersService.applyPromotion`. -/
def applyPromotionStep (now : Int) (customerId code : String) (s : AppState) :
    AppState × Option ApiError :=
  if s.order.customerId ≠ customerId then (s, some .notFound)
  else if s.order.status ≠ OrderStatus.PENDING then (s, some .invalidState)
  else if s.order.discounts.any (fun d => d.discountCode == upper code) then
    (s, some .duplicateCode)
  else
    match findPromotion s.promotions code with
    | none => (s, some .notFound)
    | some promotion =>
      match validatePromotion promotion now with
      | .error e => (s, some e)
      | .ok promotion =>
        let eligibleItems := checkEligibility promotion s.order.items
        if eligibleItems.length == 0 then (s, some .noEligibleItems)
        else
          let calculatedDiscount := calculatePromotionDiscount promotion eligibleItems
          let subtotal := s.order.subtotal
          let currentDiscount := s.order.totalDiscount
          match enforceDiscountCap subtotal currentDiscount calculatedDiscount with
          | .error e => (s, some e)
          | .ok discountAmount =>
            match promotionTxCommit s.order promotion.code discountAmount
                s.promotions promotion.id promotion.version with
            | (_, some e) => (s, some e)
            | ((order', promotions'), none) =>
              ({ s with order := order', promotions := promotions' }, none)

/-- `OrdersService.removeDiscount`: delete the discount record, restore the
totals, and release one usage count on the originating rule (resolved by the
record's `discountType`).  The deletion and order update are transactional;
the rule lookup precedes the decrement, so a lookup failure rolls the
transaction back before anything escaped it. -/
def removeDiscountStep (customerId code : String) (s : AppState) :
    AppState × Option ApiError :=
  if s.order.customerId ≠ customerId then (s, some .notFound)
  else if s.order.status ≠ OrderStatus.PENDING then (s, some .invalidState)
  else
    match s.order.discounts.find? (fun d => d.discountCode == upper code) with
    | none => (s, some .notFound)
    | some discount =>
      let newDiscounts := s.order.discounts.eraseP (fun d => d.discountCode == upper code)
      let newTotalDiscount := s.order.totalDiscount - discount.discountAmount
      let newFinalTotal := s.order.subtotal - newTotalDiscount
      let order' :=
        { s.order with
          discounts := newDiscounts,
          totalDiscount := toFixed2 newTotalDiscount,
          finalTotal := toFixed2 newFinalTotal }
      match discount.discountType with
      | .VOUCHER =>
        match findVoucher s.vouchers discount.discountCode with
        | none => (s, some .notFound)
        | some voucher =>
          match decrementVoucherUsage s.vouchers voucher.id with
          | .error e => (s, some e)
          | .ok vouchers' => ({ s with order := order', vouchers := vouchers' }, none)
      | .PROMOTION =>
        match findPromotion s.promotions discount.discountCode with
        | none => (s, some .notFound)
        | some promotion =>
          match decrementPromotionUsage s.promotions promotion.id with
          | .error e => (s, some e)
          | .ok promotions' => ({ s with order := order', promotions := promotions' }, none)

/-- The release loop of `OrdersService.cancelOrder`: for each applied
discount, look the rule up by code in the matching store and decrement its
usage.  These calls go through the services' own Prisma client, so the
decrements already performed persist even when a later lookup fails and the
surrounding transaction rolls back. -/
def releaseAll (vouchers : List Voucher) (promotions : List Promotion) :
    List OrderDiscount → (List Voucher × List Promotion) × Option ApiError
  | [] => ((vouchers, promotions), none)
  | discount :: rest =>
    match discount.discountType with
    | .VOUCHER =>
      match findVoucher vouchers discount.discountCode with
      | none => ((vouchers, promotions), some .notFound)
      | some voucher =>
        match decrementVoucherUsage vouchers voucher.id with
        | .error e => ((vouchers, promotions), some e)
        | .ok vouchers' => releaseAll vouchers' promotions rest
    | .PROMOTION =>
      match findPromotion promotions discount.discountCode with
      | none => ((vouchers, promotions), some .notFound)
      | some promotion =>
        match decrementPromotionUsage promotions promotion.id with
        | .error e => ((vouchers, promotions), some e)
        | .ok promotions' => releaseAll vouchers promotions' rest

/-- `OrdersService.cancelOrder`: status checks, then a transaction that sets
the order CANCELLED (transaction client) and releases every applied
discount's usage (service clients).  On a release failure the buffered
status write is rolled back while the decrements already issued persist. -/
def cancelOrderStep (customerId : String) (s : AppState) : AppState × Option ApiError :=
  if s.order.customerId ≠ customerId then (s, some .notFound)
  else if s.order.status = OrderStatus.CANCELLED then (s, some .invalidState)
  else if s.order.status = OrderStatus.CONFIRMED then (s, some .invalidState)
  else
    match releaseAll s.vouchers s.promotions s.order.discounts with
    | ((vouchers', promotions'), some e) =>
      ({ s with vouchers := vouchers', promotions := promotions' }, some e)
    | ((vouchers', promotions'), none) =>
      ({ s with
         order := { s.order with status := OrderStatus.CANCELLED },
         vouchers := vouchers', promotions := promotions' }, none)

/-- `OrdersService.create`: subtotal fixed at creation as the sum of the
line totals, no discounts, PENDING status; monetary fields persisted with
two fraction digits. -/
def createOrder (customerId : String) (items : List OrderItem) : Order :=
  let subtotal := items.foldl (fun sum item => sum + item.unitPrice * (item.quantity : ℚ)) 0
  { customerId := customerId,
    subtotal := toFixed2 subtotal,
    totalDiscount := 0,
    finalTotal := toFixed2 subtotal,
    status := .PENDING,
    items := items.map (fun item => { item with unitPrice := toFixed2 item.unitPrice }),
    discounts := [] }

/-- `OrdersController.applyDiscount`: try the code as a voucher; on failure
try it as a promotion; when both fail, rethrow the voucher error.  The
second component reports which branch produced the returned result. -/
def controllerApplyDiscount (now : Int) (customerId code : String) (s : AppState) :
    (AppState × Option ApiError) × Option RecordType :=
  match applyVoucherStep now customerId code s with
  | (s', none) => ((s', none), some RecordType.VOUCHER)
  | (s₁, some voucherError) =>
    match applyPromotionStep now customerId code s₁ with
    | (s', none) => ((s', none), some RecordType.PROMOTION)
    | (s₂, some _) => ((s₂, some voucherError), none)

/-- `UpdateVoucherDto`: every field optional; an absent field leaves the
stored value unchanged. -/
structure UpdateVoucherDto where
  discountType : Option DiscountType
  discountValue : Option Money
  expirationDate : Option Int
  usageLimit : Option Nat
  minOrderValue : Option Money
  isActive : Option Bool
deriving DecidableEq, Repr

/-- `VouchersService.update` after the lookup: percentage and expiration
validation, then the optimistic `where { id, version }` update spreading the
DTO and incrementing `version`.  (Sequentially the row was just read, so the
version clause matches; the raw-body `code` guard has no counterpart on a
typed DTO.) -/
def updateVoucher (voucher : Voucher) (dto : UpdateVoucherDto) (now : Int) :
    Except ApiError Voucher :=
  let percentageTarget :=
    match dto.discountType with
    | some t => t == DiscountType.PERCENTAGE
    | none => voucher.discountType == DiscountType.PERCENTAGE
  if (match dto.discountValue with
      | some dv => percentageTarget && decide (dv > 100)
      | none => false) then .error .invalidInput
  else if (match dto.expirationDate with
      | some e => decide (e ≤ now)
      | none => false) then .error .invalidInput
  else
    .ok { voucher with
      discountType := dto.discountType.getD voucher.discountType,
      discountValue := dto.discountValue.getD voucher.discountValue,
      expirationDate := dto.expirationDate.getD voucher.expirationDate,
      usageLimit := dto.usageLimit.getD voucher.usageLimit,
      minOrderValue := (match dto.minOrderValue with
        | some m => some m
        | none => voucher.minOrderValue),
      isActive := dto.isActive.getD voucher.isActive,
      version := voucher.version + 1 }

/-- `VouchersService.remove`: blocked when the voucher has been used; soft
delete by setting `deletedAt` and clearing `isActive` (the `version` field
is not touched by this update). -/
def removeVoucher (voucher : Voucher) (now : Int) : Except ApiError Voucher :=
  if voucher.currentUsage > 0 then .error .cannotDeleteUsed
  else .ok { voucher with deletedAt := some now, isActive := false }

/-- `UpdatePromotionDto`. -/
structure UpdatePromotionDto where
  discountType : Option DiscountType
  discountValue : Option Money
  expirationDate : Option Int
  usageLimit : Option Nat
  eligibleCategories : Option (List String)
  eligibleItems : Option (List String)
  isActive : Option Bool
deriving DecidableEq, Repr

/-- `PromotionsService.update` after the lookup. -/
def updatePromotion (promotion : Promotion) (dto : UpdatePromotionDto) (now : Int) :
    Except ApiError Promotion :=
  let newCategories := dto.eligibleCategories.getD promotion.eligibleCategories
  let newItems := dto.eligibleItems.getD promotion.eligibleItems
  if newCategories.length == 0 && newItems.length == 0 then .error .invalidInput
  else
    let percentageTarget :=
      match dto.discountType with
      | some t => t == DiscountType.PERCENTAGE
      | none => promotion.discountType == DiscountType.PERCENTAGE
    if (match dto.discountValue with
        | some dv => percentageTarget && decide (dv > 100)
        | none => false) then .error .invalidInput
    else if (match dto.expirationDate with
        | some e => decide (e ≤ now)
        | none => false) then .error .invalidInput
    else
      .ok { promotion with
        discountType := dto.discountType.getD promotion.discountType,
        discountValue := dto.discountValue.getD promotion.discountValue,
        expirationDate := dto.expirationDate.getD promotion.expirationDate,
        usageLimit := dto.usageLimit.getD promotion.usageLimit,
        eligibleCategories := newCategories,
        eligibleItems := newItems,
        isActive := dto.isActive.getD promotion.isActive,
        version := promotion.version + 1 }

/-- `PromotionsService.remove`: soft delete, `version` not touched. -/
def removePromotion (promotion : Promotion) (now : Int) : Except ApiError Promotion :=
  if promotion.currentUsage > 0 then .error .cannotDeleteUsed
  else .ok { promotion with deletedAt := some now, isActive := false }

theorem toFixed2_isCents (q : Money) : IsCents (toFixed2 q) :=
  ⟨⌊q * 100 + 1/2⌋, rfl⟩

theorem isCents_zero : IsCents 0 :=
  ⟨0, by norm_num⟩

theorem IsCents.add {a b : Money} (ha : IsCents a) (hb : IsCents b) : IsCents (a + b) := by
  obtain ⟨m, rfl⟩ := ha
  obtain ⟨n, rfl⟩ := hb
  exact ⟨m + n, by push_cast; ring⟩

theorem IsCents.sub {a b : Money} (ha : IsCents a) (hb : IsCents b) : IsCents (a - b) := by
  obtain ⟨m, rfl⟩ := ha
  obtain ⟨n, rfl⟩ := hb
  exact ⟨m - n, by push_cast; ring⟩

theorem toFixed2_cents_add {c : Money} (hc : IsCents c) (x : Money) :
    toFixed2 (c + x) = c + toFixed2 x := by
  obtain ⟨n, rfl⟩ := hc
  unfold toFixed2
  have h : ((n : ℚ) / 100 + x) * 100 + 1/2 = (n : ℚ) + (x * 100 + 1/2) := by
    ring
  rw [h, Int.floor_int_add]
  push_cast
  ring

theorem toFixed2_eq_self {q : Money} (hq : IsCents q) : toFixed2 q = q := by
  obtain ⟨n, rfl⟩ := hq
  unfold toFixed2
  have h : ((n : ℚ) / 100) * 100 + 1/2 = (n : ℚ) + 1/2 := by
    ring
  rw [h, Int.floor_int_add]
  norm_num

theorem toFixed2_le (q : Money) : toFixed2 q ≤ q + 1/200 := by
  unfold toFixed2
  have h := Int.floor_le (q * 100 + 1/2)
  have h100 : (0 : ℚ) < 100 := by norm_num
  rw [div_le_iff₀ h100]
  linarith

theorem toFixed2_nonneg {q : Money} (hq : 0 ≤ q) : 0 ≤ toFixed2 q := by
  unfold toFixed2
  have h : (0 : ℤ) ≤ ⌊q * 100 + 1/2⌋ := by
    rw [Int.le_floor]
    push_cast
    linarith
  positivity

theorem toFixed2_add_neg (q : Money) :
    0 ≤ toFixed2 q + toFixed2 (-q) ∧ toFixed2 q + toFixed2 (-q) ≤ 1/100 := by
  unfold toFixed2
  have h1 : -q * 100 + 1/2 = 1 - (q * 100 + 1/2) := by ring
  have h2 : ⌊(1 : ℚ) - (q * 100 + 1/2)⌋ = 1 + ⌊-(q * 100 + 1/2)⌋ := by
    rw [sub_eq_add_neg, show ((1 : ℚ)) = ((1 : ℤ) : ℚ) by norm_num, Int.floor_int_add]
  have hcf : ((⌈q * 100 + 1/2⌉ : ℤ) : ℚ) ≤ ((⌊q * 100 + 1/2⌋ : ℤ) : ℚ) + 1 := by
    exact_mod_cast Int.ceil_le_floor_add_one (q * 100 + 1/2)
  have hfc : ((⌊q * 100 + 1/2⌋ : ℤ) : ℚ) ≤ ((⌈q * 100 + 1/2⌉ : ℤ) : ℚ) := by
    exact_mod_cast Int.floor_le_ceil (q * 100 + 1/2)
  rw [h1, h2, Int.floor_neg]
  constructor
  · rw [div_add_div_same]
    apply div_nonneg _ (by norm_num : (0:ℚ) ≤ 100)
    push_cast
    linarith
  · rw [div_add_div_same, div_le_div_iff₀ (by norm_num) (by norm_num)]
    push_cast
    linarith

theorem foldl_add_eq {α : Type} (f : α → ℚ) (l : List α) (init : ℚ) :
    l.foldl (fun s i => s + f i) init = init + (l.map f).sum := by
  induction l generalizing init with
  | nil => simp
  | cons a t ih =>
    simp only [List.foldl_cons, List.map_cons, List.sum_cons, ih]
    ring

/-- C2: for subtotal `S`, current total discount `C` and proposed discount
`D`, the cap enforcer returns `D` unchanged when `C + D ≤ 0.5 × S`;
otherwise, when `0.5 × S − C ≤ 0` it fails with `DiscountCapReached`, and
when `0.5 × S − C > 0` it returns exactly `0.5 × S − C`. -/
theorem c2_enforce_discount_cap (S C D : Money) :
    (C + D ≤ S * (1/2) → enforceDiscountCap S C D = .ok D) ∧
    (¬ C + D ≤ S * (1/2) → S * (1/2) - C ≤ 0 →
      enforceDiscountCap S C D = .error .capReached) ∧
    (¬ C + D ≤ S * (1/2) → 0 < S * (1/2) - C →
      enforceDiscountCap S C D = .ok (S * (1/2) - C)) := by
  refine ⟨fun h => ?_, fun h₁ h₂ => ?_, fun h₁ h₂ => ?_⟩
  · simp only [enforceDiscountCap]
    rw [if_neg (not_lt.mpr h)]
  · simp only [enforceDiscountCap]
    rw [if_pos (not_le.mp h₁), if_pos h₂]
  · simp only [enforceDiscountCap]
    rw [if_pos (not_le.mp h₁), if_neg (not_le.mpr h₂)]

theorem c2_enforce_discount_cap_witness :
    enforceDiscountCap 100 10 20 = .ok 20 ∧
    enforceDiscountCap 100 50 10 = .error .capReached :=
  ⟨(c2_enforce_discount_cap 100 10 20).1 (by norm_num),
   (c2_enforce_discount_cap 100 50 10).2.1 (by norm_num) (by norm_num)⟩

/-- C4: the raw voucher discount is `S × value/100` for PERCENTAGE and
`min(value, S)` (never exceeding `S`) for FIXED; the raw promotion discount
over the eligible items is their total times `value/100` for PERCENTAGE,
and for FIXED the per-item sum of `min(value×quantity, unitPrice×quantity)`,
so no single item contributes more than its own line total. -/
theorem c4_discount_calculators (voucher : Voucher) (S : Money) (hS : 0 < S)
    (promotion : Promotion) (eligible : List OrderItem) (hne : eligible ≠ []) :
    (voucher.discountType = .PERCENTAGE →
      calculateVoucherDiscount voucher S = S * voucher.discountValue / 100) ∧
    (voucher.discountType = .FIXED →
      calculateVoucherDiscount voucher S = min voucher.discountValue S ∧
      calculateVoucherDiscount voucher S ≤ S) ∧
    (promotion.discountType = .PERCENTAGE →
      calculatePromotionDiscount promotion eligible =
        (eligible.map (fun item => item.unitPrice * (item.quantity : ℚ))).sum *
          promotion.discountValue / 100) ∧
    (promotion.discountType = .FIXED →
      calculatePromotionDiscount promotion eligible =
        (eligible.map (fun item =>
          min (promotion.discountValue * (item.quantity : ℚ))
            (item.unitPrice * (item.quantity : ℚ)))).sum ∧
      ∀ item ∈ eligible,
        min (promotion.discountValue * (item.quantity : ℚ))
            (item.unitPrice * (item.quantity : ℚ)) ≤
          item.unitPrice * (item.quantity : ℚ)) := by
  refine ⟨fun h => ?_, fun h => ?_, fun h => ?_, fun h => ?_⟩
  · simp only [calculateVoucherDiscount, h]
  · simp only [calculateVoucherDiscount, h]
    exact ⟨trivial, min_le_right _ _⟩
  · simp only [calculatePromotionDiscount, h]
    rw [foldl_add_eq, zero_add]
  · simp only [calculatePromotionDiscount, h]
    refine ⟨by rw [foldl_add_eq, zero_add], fun item _ => min_le_right _ _⟩

/-- A concrete voucher for the concrete evaluations below. -/
def sampleVoucher : Voucher :=
  { id := "v1", code := "SAVE10", discountType := .FIXED, discountValue := 10,
    expirationDate := 1000, usageLimit := 5, currentUsage := 0,
    minOrderValue := none, isActive := true, version := 3, deletedAt := none }

/-- A concrete promotion for the concrete evaluations below. -/
def samplePromotion : Promotion :=
  { id := "p1", code := "ELEC10", discountType := .PERCENTAGE, discountValue := 10,
    expirationDate := 1000, usageLimit := 5, currentUsage := 0,
    eligibleCategories := ["Electronics"], eligibleItems := [],
    isActive := true, version := 2, deletedAt := none }

/-- A concrete order item for the concrete evaluations below. -/
def sampleItem : OrderItem :=
  { productId := "PROD-001", productName := "Wireless Mouse",
    category := "Electronics", unitPrice := 20, quantity := 2 }

theorem c4_discount_calculators_witness :
    calculateVoucherDiscount sampleVoucher 100 = min (10 : ℚ) 100 ∧
    calculateVoucherDiscount sampleVoucher 100 ≤ 100 :=
  (c4_discount_calculators sampleVoucher 100 (by norm_num)
    samplePromotion [sampleItem] (by simp)).2.1 rfl

/-- C5: `incrementUsage(id, expectedVersion)` succeeds if and only if the
stored rule's version equals `expectedVersion`, on success setting
`currentUsage + 1` and `version + 1` together, otherwise failing with a
version conflict; `decrementUsage(id)` on an existing rule is a no-op when
`currentUsage = 0` and otherwise unconditionally sets `currentUsage − 1`
and `version + 1`.  Stated on the store holding the addressed row. -/
theorem c5_usage_counters (v : Voucher) (p : Promotion) (expectedVersion : Nat) :
    (v.version = expectedVersion →
      incrementVoucherUsage [v] v.id expectedVersion =
        .ok [{ v with currentUsage := v.currentUsage + 1, version := v.version + 1 }]) ∧
    (v.version ≠ expectedVersion →
      incrementVoucherUsage [v] v.id expectedVersion = .error .versionConflict) ∧
    (v.currentUsage = 0 → decrementVoucherUsage [v] v.id = .ok [v]) ∧
    (v.currentUsage ≠ 0 →
      decrementVoucherUsage [v] v.id =
        .ok [{ v with currentUsage := v.currentUsage - 1, version := v.version + 1 }]) ∧
    (p.version = expectedVersion →
      incrementPromotionUsage [p] p.id expectedVersion =
        .ok [{ p with currentUsage := p.currentUsage + 1, version := p.version + 1 }]) ∧
    (p.version ≠ expectedVersion →
      incrementPromotionUsage [p] p.id expectedVersion = .error .versionConflict) ∧
    (p.currentUsage = 0 → decrementPromotionUsage [p] p.id = .ok [p]) ∧
    (p.currentUsage ≠ 0 →
      decrementPromotionUsage [p] p.id =
        .ok [{ p with currentUsage := p.currentUsage - 1, version := p.version + 1 }]) := by
  refine ⟨fun h => ?_, fun h => ?_, fun h => ?_, fun h => ?_,
    fun h => ?_, fun h => ?_, fun h => ?_, fun h => ?_⟩
  · simp [incrementVoucherUsage, h]
  · simp [incrementVoucherUsage, h]
  · simp [decrementVoucherUsage, h]
  · simp [decrementVoucherUsage, h]
  · simp [incrementPromotionUsage, h]
  · simp [incrementPromotionUsage, h]
  · simp [decrementPromotionUsage, h]
  · simp [decrementPromotionUsage, h]

theorem c5_usage_counters_witness :
    incrementVoucherUsage [sampleVoucher] sampleVoucher.id 3 =
      .ok [{ sampleVoucher with currentUsage := 1, version := 4 }] ∧
    decrementVoucherUsage [sampleVoucher] sampleVoucher.id = .ok [sampleVoucher] :=
  ⟨(c5_usage_counters sampleVoucher samplePromotion 3).1 rfl,
   (c5_usage_counters sampleVoucher samplePromotion 3).2.2.1 rfl⟩

/-- The soft-deleted image of `sampleVoucher`. -/
def sampleVoucherDeleted : Voucher :=
  { sampleVoucher with deletedAt := some 5, isActive := false }

/-- C9 counterexample: the soft delete (`remove`) is a mutating update that
produces a distinct persisted state with an unchanged `version`, so version
is not a strictly monotonic token across all the mutating operations the
claim lists. -/
theorem c9_version_counterexample :
    removeVoucher sampleVoucher 5 = .ok sampleVoucherDeleted ∧
    sampleVoucherDeleted ≠ sampleVoucher ∧
    sampleVoucherDeleted.version = sampleVoucher.version := by
  refine ⟨rfl, ?_, rfl⟩
  intro h
  have := congrArg Voucher.isActive h
  simp [sampleVoucherDeleted, sampleVoucher] at this

/-- C9 (amended): the admin update, the usage increment and the effective
usage decrement each increment `version` by one, while the soft delete
leaves `version` unchanged (writing only `deletedAt` and `isActive`), for
vouchers and promotions alike. -/
theorem c9_version_increments (v v' : Voucher) (p p' : Promotion)
    (dto : UpdateVoucherDto) (pdto : UpdatePromotionDto) (now : Int) (ver : Nat) :
    (updateVoucher v dto now = .ok v' → v'.version = v.version + 1) ∧
    (incrementVoucherUsage [v] v.id ver = .ok [v'] → v'.version = v.version + 1) ∧
    (v.currentUsage ≠ 0 → decrementVoucherUsage [v] v.id = .ok [v'] →
      v'.version = v.version + 1) ∧
    (removeVoucher v now = .ok v' → v'.version = v.version) ∧
    (updatePromotion p pdto now = .ok p' → p'.version = p.version + 1) ∧
    (incrementPromotionUsage [p] p.id ver = .ok [p'] → p'.version = p.version + 1) ∧
    (p.currentUsage ≠ 0 → decrementPromotionUsage [p] p.id = .ok [p'] →
      p'.version = p.version + 1) ∧
    (removePromotion p now = .ok p' → p'.version = p.version) := by
  refine ⟨fun h => ?_, fun h => ?_, fun h hd => ?_, fun h => ?_,
    fun h => ?_, fun h => ?_, fun h hd => ?_, fun h => ?_⟩
  · simp only [updateVoucher] at h
    split at h
    · exact absurd h (by simp)
    · split at h
      · exact absurd h (by simp)
      · cases h
        rfl
  · by_cases hv : v.version = ver
    · simp [incrementVoucherUsage, hv] at h
      rw [← h, hv]
    · simp [incrementVoucherUsage, hv] at h
  · simp [decrementVoucherUsage, h] at hd
    rw [← hd]
  · simp only [removeVoucher] at h
    split at h
    · exact absurd h (by simp)
    · cases h
      rfl
  · simp only [updatePromotion] at h
    split at h
    · exact absurd h (by simp)
    · split at h
      · exact absurd h (by simp)
      · split at h
        · exact absurd h (by simp)
        · cases h
          rfl
  · by_cases hp : p.version = ver
    · simp [incrementPromotionUsage, hp] at h
      rw [← h, hp]
    · simp [incrementPromotionUsage, hp] at h
  · simp [decrementPromotionUsage, h] at hd
    rw [← hd]
  · simp only [removePromotion] at h
    split at h
    · exact absurd h (by simp)
    · cases h
      rfl

/-- An update DTO leaving every field unchanged. -/
def emptyVoucherUpdate : UpdateVoucherDto :=
  { discountType := none, discountValue := none, expirationDate := none,
    usageLimit := none, minOrderValue := none, isActive := none }

theorem c9_version_increments_witness :
    updateVoucher sampleVoucher emptyVoucherUpdate 0 =
      .ok { sampleVoucher with version := 4 } ∧
    ({ sampleVoucher with version := 4 } : Voucher).version =
      sampleVoucher.version + 1 :=
  ⟨rfl,
   (c9_version_increments sampleVoucher { sampleVoucher with version := 4 }
      samplePromotion samplePromotion emptyVoucherUpdate
      ⟨none, none, none, none, none, none, none⟩ 0 0).1 rfl⟩

theorem guard_contains_eq {l : List String} {x : String} :
    (decide (0 < l.length) && l.contains x) = l.contains x := by
  cases l <;> simp

/-- Helper: when the ownership, status, duplicate, lookup and validation
checks all pass but no item is eligible, `applyPromotion` fails with the
no-eligible-items error and leaves the state unchanged. -/
theorem applyPromotionStep_noEligible {now : Int} {customerId code : String}
    {s : AppState} {promotion : Promotion}
    (h1 : s.order.customerId = customerId)
    (h2 : s.order.status = OrderStatus.PENDING)
    (h3 : (s.order.discounts.any fun d => d.discountCode == upper code) = false)
    (h4 : findPromotion s.promotions code = some promotion)
    (h5 : validatePromotion promotion now = .ok promotion)
    (h6 : checkEligibility promotion s.order.items = []) :
    applyPromotionStep now customerId code s = (s, some .noEligibleItems) := by
  simp only [applyPromotionStep, h1, h2, h3, h4, h5, h6]
  simp

/-- C6: the eligibility matcher returns exactly the items whose lower-cased
category appears among the lower-cased eligible categories OR whose product
id appears among the eligible items (inclusive OR), and when that subset is
empty the promotion application fails with the no-eligible-items error. -/
theorem c6_eligibility :
    (∀ (promotion : Promotion) (orderItems : List OrderItem),
      checkEligibility promotion orderItems =
        orderItems.filter (fun item =>
          (promotion.eligibleCategories.map (fun cat => lower cat)).contains
              (lower item.category)
            || promotion.eligibleItems.contains item.productId)) ∧
    (∀ (now : Int) (customerId code : String) (s : AppState) (promotion : Promotion),
      s.order.customerId = customerId →
      s.order.status = OrderStatus.PENDING →
      (s.order.discounts.any fun d => d.discountCode == upper code) = false →
      findPromotion s.promotions code = some promotion →
      validatePromotion promotion now = .ok promotion →
      checkEligibility promotion s.order.items = [] →
      applyPromotionStep now customerId code s = (s, some .noEligibleItems)) := by
  constructor
  · intro promotion orderItems
    simp only [checkEligibility]
    apply List.filter_congr
    intro item _
    rw [guard_contains_eq, guard_contains_eq]
  · intro now customerId code s promotion h1 h2 h3 h4 h5 h6
    exact applyPromotionStep_noEligible h1 h2 h3 h4 h5 h6

/-- An order item whose category matches no sample promotion criterion. -/
def bookItem : OrderItem :=
  { productId := "PROD-9", productName := "Lean Manual", category := "Books",
    unitPrice := 15, quantity := 1 }

/-- A pending order holding only `bookItem`, owned by alice. -/
def bookOrder : Order :=
  { customerId := "alice", subtotal := 15, totalDiscount := 0, finalTotal := 15,
    status := .PENDING, items := [bookItem], discounts := [] }

/-- State for the concrete no-eligible-items run. -/
def c6State : AppState :=
  { order := bookOrder, vouchers := [], promotions := [samplePromotion] }

theorem c6_eligibility_witness :
    applyPromotionStep 0 "alice" "ELEC10" c6State = (c6State, some .noEligibleItems) :=
  c6_eligibility.2 0 "alice" "ELEC10" c6State samplePromotion rfl rfl rfl
    rfl rfl rfl

/-- A promotion with both eligibility lists empty (not creatable through the
validated DTOs, but the matcher's own behavior on it is what the claim is
about). -/
def emptyCriteria : Promotion :=
  { samplePromotion with code := "EMPTYP", eligibleCategories := [], eligibleItems := [] }

/-- State for the empty-criteria run. -/
def c10State : AppState :=
  { order := bookOrder, vouchers := [], promotions := [emptyCriteria] }

/-- C10: with both eligibility lists empty the matcher returns the empty
list on every item list, so applying such a promotion (once the ownership,
status, duplicate, lookup and validation checks pass) fails with the
no-eligible-items error. -/
theorem c10_empty_criteria (promotion : Promotion)
    (hcats : promotion.eligibleCategories = [])
    (hitems : promotion.eligibleItems = []) :
    (∀ orderItems : List OrderItem, checkEligibility promotion orderItems = []) ∧
    (∀ (now : Int) (customerId code : String) (s : AppState),
      s.order.customerId = customerId →
      s.order.status = OrderStatus.PENDING →
      (s.order.discounts.any fun d => d.discountCode == upper code) = false →
      findPromotion s.promotions code = some promotion →
      validatePromotion promotion now = .ok promotion →
      applyPromotionStep now customerId code s = (s, some .noEligibleItems)) := by
  have hempty : ∀ orderItems : List OrderItem, checkEligibility promotion orderItems = [] := by
    intro orderItems
    simp [checkEligibility, hcats, hitems]
  refine ⟨hempty, ?_⟩
  intro now customerId code s h1 h2 h3 h4 h5
  exact applyPromotionStep_noEligible h1 h2 h3 h4 h5 (hempty _)

theorem c10_empty_criteria_witness :
    checkEligibility emptyCriteria [sampleItem] = [] ∧
    applyPromotionStep 0 "alice" "EMPTYP" c10State = (c10State, some .noEligibleItems) :=
  ⟨(c10_empty_criteria emptyCriteria rfl rfl).1 [sampleItem],
   (c10_empty_criteria emptyCriteria rfl rfl).2 0 "alice" "EMPTYP" c10State
     rfl rfl rfl rfl rfl⟩

theorem applyVoucherStep_error_unchanged {now : Int} {customerId code : String}
    {s s' : AppState} {e : ApiError}
    (h : applyVoucherStep now customerId code s = (s', some e)) : s' = s := by
  simp only [applyVoucherStep] at h
  repeat' split at h
  all_goals simp_all

theorem applyPromotionStep_error_unchanged {now : Int} {customerId code : String}
    {s s' : AppState} {e : ApiError}
    (h : applyPromotionStep now customerId code s = (s', some e)) : s' = s := by
  simp only [applyPromotionStep] at h
  repeat' split at h
  all_goals simp_all

/-- C7: the controller resolves the code as a voucher first; the promotion's
result is returned exactly when the voucher attempt fails and the promotion
attempt succeeds; and when both attempts fail the surfaced error is the
voucher attempt's error. -/
theorem c7_voucher_then_promotion (now : Int) (customerId code : String) (s : AppState) :
    ((applyVoucherStep now customerId code s).2 = none →
      controllerApplyDiscount now customerId code s =
        (((applyVoucherStep now customerId code s).1, none), some RecordType.VOUCHER)) ∧
    ((controllerApplyDiscount now customerId code s).2 = some RecordType.PROMOTION ↔
      (applyVoucherStep now customerId code s).2.isSome ∧
      (applyPromotionStep now customerId code s).2 = none) ∧
    (∀ ve : ApiError, (applyVoucherStep now customerId code s).2 = some ve →
      (applyPromotionStep now customerId code s).2.isSome →
      (controllerApplyDiscount now customerId code s).1.2 = some ve) := by
  have hVfull : applyVoucherStep now customerId code s =
      ((applyVoucherStep now customerId code s).1, (applyVoucherStep now customerId code s).2) :=
    (Prod.mk.eta).symm
  cases hV : (applyVoucherStep now customerId code s).2 with
  | none =>
    rw [hV] at hVfull
    have hc : controllerApplyDiscount now customerId code s =
        (((applyVoucherStep now customerId code s).1, none), some RecordType.VOUCHER) := by
      rw [controllerApplyDiscount, hVfull]
    refine ⟨fun _ => hc, ?_, fun ve hve => ?_⟩
    · rw [hc]
      simp
    · simp at hve
  | some ve₁ =>
    rw [hV] at hVfull
    have hs₁ : (applyVoucherStep now customerId code s).1 = s :=
      applyVoucherStep_error_unchanged hVfull
    rw [hs₁] at hVfull
    have hPfull : applyPromotionStep now customerId code s =
        ((applyPromotionStep now customerId code s).1,
          (applyPromotionStep now customerId code s).2) :=
      (Prod.mk.eta).symm
    cases hP : (applyPromotionStep now customerId code s).2 with
    | none =>
      rw [hP] at hPfull
      have hc : controllerApplyDiscount now customerId code s =
          (((applyPromotionStep now customerId code s).1, none),
            some RecordType.PROMOTION) := by
        rw [controllerApplyDiscount, hVfull]
        dsimp only
        rw [hPfull]
      refine ⟨fun hnone => ?_, ?_, fun ve hve hsome => ?_⟩
      · simp at hnone
      · rw [hc]
        simp
      · simp at hsome
    | some ve₂ =>
      rw [hP] at hPfull
      have hc : controllerApplyDiscount now customerId code s =
          (((applyPromotionStep now customerId code s).1, some ve₁), none) := by
        rw [controllerApplyDiscount, hVfull]
        dsimp only
        rw [hPfull]
      refine ⟨fun hnone => ?_, ?_, fun ve hve hsome => ?_⟩
      · simp at hnone
      · rw [hc]
        simp
      · injection hve with h
        subst h
        rw [hc]

/-- An inactive voucher whose validation fails with the inactive error. -/
def deadVoucher : Voucher :=
  { sampleVoucher with code := "DEAD", isActive := false }

/-- State for the both-attempts-fail run: the code resolves to an inactive
voucher and to no promotion. -/
def c7State : AppState :=
  { order := bookOrder, vouchers := [deadVoucher], promotions := [] }

theorem c7_voucher_then_promotion_witness :
    (applyVoucherStep 0 "alice" "DEAD" c7State).2 = some ApiError.inactive ∧
    (applyPromotionStep 0 "alice" "DEAD" c7State).2.isSome = true ∧
    (controllerApplyDiscount 0 "alice" "DEAD" c7State).1.2 = some ApiError.inactive :=
  ⟨rfl, rfl,
   (c7_voucher_then_promotion 0 "alice" "DEAD" c7State).2.2 ApiError.inactive rfl rfl⟩

theorem removeDiscountStep_error_unchanged {customerId code : String}
    {s s' : AppState} {e : ApiError}
    (h : removeDiscountStep customerId code s = (s', some e)) : s' = s := by
  simp only [removeDiscountStep] at h
  repeat' split at h
  all_goals simp_all

theorem findVoucher_decrement_isSome {store store' : List Voucher} {id : String}
    (h : decrementVoucherUsage store id = .ok store') :
    ∀ c, (findVoucher store' c).isSome = (findVoucher store c).isSome := by
  intro c
  simp only [decrementVoucherUsage] at h
  split at h
  · cases h
  · split at h
    · cases h
      rfl
    · cases h
      simp only [findVoucher, List.find?_map]
      have hp : (fun v : Voucher => v.code == upper c && v.deletedAt.isNone) ∘
          (fun v : Voucher => if v.id == id then
            { v with currentUsage := v.currentUsage - 1, version := v.version + 1 }
          else v) =
          fun v : Voucher => v.code == upper c && v.deletedAt.isNone := by
        funext v
        by_cases hv : v.id = id <;> simp [hv]
      rw [hp]
      simp

theorem findPromotion_decrement_isSome {store store' : List Promotion} {id : String}
    (h : decrementPromotionUsage store id = .ok store') :
    ∀ c, (findPromotion store' c).isSome = (findPromotion store c).isSome := by
  intro c
  simp only [decrementPromotionUsage] at h
  split at h
  · cases h
  · split at h
    · cases h
      rfl
    · cases h
      simp only [findPromotion, List.find?_map]
      have hp : (fun p : Promotion => p.code == upper c && p.deletedAt.isNone) ∘
          (fun p : Promotion => if p.id == id then
            { p with currentUsage := p.currentUsage - 1, version := p.version + 1 }
          else p) =
          fun p : Promotion => p.code == upper c && p.deletedAt.isNone := by
        funext p
        by_cases hp' : p.id = id <;> simp [hp']
      rw [hp]
      simp

theorem decrementVoucherUsage_found_ok {store : List Voucher} {voucher : Voucher}
    (hmem : voucher ∈ store) :
    ∃ store', decrementVoucherUsage store voucher.id = .ok store' := by
  simp only [decrementVoucherUsage]
  have hfind : (store.find? (fun v => v.id == voucher.id)).isSome := by
    rw [List.find?_isSome]
    exact ⟨voucher, hmem, by simp⟩
  obtain ⟨w, hw⟩ := Option.isSome_iff_exists.mp hfind
  rw [hw]
  dsimp only
  split
  · exact ⟨store, rfl⟩
  · exact ⟨_, rfl⟩

theorem decrementPromotionUsage_found_ok {store : List Promotion} {promotion : Promotion}
    (hmem : promotion ∈ store) :
    ∃ store', decrementPromotionUsage store promotion.id = .ok store' := by
  simp only [decrementPromotionUsage]
  have hfind : (store.find? (fun p => p.id == promotion.id)).isSome := by
    rw [List.find?_isSome]
    exact ⟨promotion, hmem, by simp⟩
  obtain ⟨w, hw⟩ := Option.isSome_iff_exists.mp hfind
  rw [hw]
  dsimp only
  split
  · exact ⟨store, rfl⟩
  · exact ⟨_, rfl⟩

/-- Every discount on the list resolves in the matching store: the release
loop then completes without error. -/
theorem releaseAll_ok (ds : List OrderDiscount) :
    ∀ (vouchers : List Voucher) (promotions : List Promotion),
    (∀ d ∈ ds,
      (d.discountType = .VOUCHER → (findVoucher vouchers d.discountCode).isSome) ∧
      (d.discountType = .PROMOTION → (findPromotion promotions d.discountCode).isSome)) →
    (releaseAll vouchers promotions ds).2 = none := by
  induction ds with
  | nil => intro vouchers promotions _; rfl
  | cons d rest ih =>
    intro vouchers promotions h
    have hd := h d (List.mem_cons_self d rest)
    cases hdt : d.discountType with
    | VOUCHER =>
      have hfind : (findVoucher vouchers d.discountCode).isSome := hd.1 hdt
      obtain ⟨voucher, hv⟩ := Option.isSome_iff_exists.mp hfind
      have hmem : voucher ∈ vouchers := List.mem_of_find?_eq_some hv
      obtain ⟨vouchers', hdec⟩ := decrementVoucherUsage_found_ok hmem
      simp only [releaseAll, hdt, hv, hdec]
      apply ih
      intro d' hd'
      have hd'' := h d' (List.mem_cons_of_mem d hd')
      exact ⟨fun ht => by rw [findVoucher_decrement_isSome hdec]; exact hd''.1 ht,
        hd''.2⟩
    | PROMOTION =>
      have hfind : (findPromotion promotions d.discountCode).isSome := hd.2 hdt
      obtain ⟨promotion, hv⟩ := Option.isSome_iff_exists.mp hfind
      have hmem : promotion ∈ promotions := List.mem_of_find?_eq_some hv
      obtain ⟨promotions', hdec⟩ := decrementPromotionUsage_found_ok hmem
      simp only [releaseAll, hdt, hv, hdec]
      apply ih
      intro d' hd'
      have hd'' := h d' (List.mem_cons_of_mem d hd')
      exact ⟨hd''.1,
        fun ht => by rw [findPromotion_decrement_isSome hdec]; exact hd''.2 ht⟩

theorem cancelOrderStep_error_unchanged {customerId : String} {s s' : AppState}
    {e : ApiError}
    (hres : ∀ d ∈ s.order.discounts,
      (d.discountType = .VOUCHER → (findVoucher s.vouchers d.discountCode).isSome) ∧
      (d.discountType = .PROMOTION → (findPromotion s.promotions d.discountCode).isSome))
    (h : cancelOrderStep customerId s = (s', some e)) : s' = s := by
  have hok := releaseAll_ok s.order.discounts s.vouchers s.promotions hres
  simp only [cancelOrderStep] at h
  split at h
  · simp_all
  · split at h
    · simp_all
    · split at h
      · simp_all
      · split at h <;> simp_all

/-- C1: each operation's writes persist all-or-nothing.  The transactional
commit of an application either fails (in particular on a version conflict
at the usage increment, when the rule's stored version no longer matches the
version captured at validation time) leaving the order, its discount
records and the rule store exactly as they were, or succeeds inserting the
discount record, updating both totals and incrementing the rule's usage in
one step; and every failing `applyVoucher`, `applyPromotion`,
`removeDiscount` or `cancelOrder` run (the latter on a state whose applied
discounts all resolve in their stores) returns the state unchanged. -/
theorem c1_all_or_nothing :
    (∀ (order : Order) (code : String) (amount : Money) (store : List Voucher)
        (ruleId : String) (ver : Nat),
      ((voucherTxCommit order code amount store ruleId ver).2.isSome →
        (voucherTxCommit order code amount store ruleId ver).1 = (order, store)) ∧
      ((store.any fun v => v.id == ruleId && v.version == ver) = false →
        (voucherTxCommit order code amount store ruleId ver).2 =
          some .versionConflict) ∧
      ((voucherTxCommit order code amount store ruleId ver).2 = none →
        ∃ store', incrementVoucherUsage store ruleId ver = .ok store' ∧
          (voucherTxCommit order code amount store ruleId ver).1 =
            ({ order with
                discounts := order.discounts ++
                  [{ discountType := .VOUCHER, discountCode := code,
                     discountAmount := toFixed2 amount }],
                totalDiscount := toFixed2 (order.totalDiscount + amount),
                finalTotal :=
                  toFixed2 (order.subtotal - (order.totalDiscount + amount)) },
              store'))) ∧
    (∀ (order : Order) (code : String) (amount : Money) (store : List Promotion)
        (ruleId : String) (ver : Nat),
      ((promotionTxCommit order code amount store ruleId ver).2.isSome →
        (promotionTxCommit order code amount store ruleId ver).1 = (order, store)) ∧
      ((store.any fun p => p.id == ruleId && p.version == ver) = false →
        (promotionTxCommit order code amount store ruleId ver).2 =
          some .versionConflict) ∧
      ((promotionTxCommit order code amount store ruleId ver).2 = none →
        ∃ store', incrementPromotionUsage store ruleId ver = .ok store' ∧
          (promotionTxCommit order code amount store ruleId ver).1 =
            ({ order with
                discounts := order.discounts ++
                  [{ discountType := .PROMOTION, discountCode := code,
                     discountAmount := toFixed2 amount }],
                totalDiscount := toFixed2 (order.totalDiscount + amount),
                finalTotal :=
                  toFixed2 (order.subtotal - (order.totalDiscount + amount)) },
              store'))) ∧
    (∀ (now : Int) (customerId code : String) (s s' : AppState) (e : ApiError),
      applyVoucherStep now customerId code s = (s', some e) → s' = s) ∧
    (∀ (now : Int) (customerId code : String) (s s' : AppState) (e : ApiError),
      applyPromotionStep now customerId code s = (s', some e) → s' = s) ∧
    (∀ (customerId code : String) (s s' : AppState) (e : ApiError),
      removeDiscountStep customerId code s = (s', some e) → s' = s) ∧
    (∀ (customerId : String) (s s' : AppState) (e : ApiError),
      (∀ d ∈ s.order.discounts,
        (d.discountType = .VOUCHER →
          (findVoucher s.vouchers d.discountCode).isSome) ∧
        (d.discountType = .PROMOTION →
          (findPromotion s.promotions d.discountCode).isSome)) →
      cancelOrderStep customerId s = (s', some e) → s' = s) := by
  refine ⟨?_, ?_,
    fun now customerId code s s' e h => applyVoucherStep_error_unchanged h,
    fun now customerId code s s' e h => applyPromotionStep_error_unchanged h,
    fun customerId code s s' e h => removeDiscountStep_error_unchanged h,
    fun customerId s s' e hres h => cancelOrderStep_error_unchanged hres h⟩
  · intro order code amount store ruleId ver
    cases hinc : incrementVoucherUsage store ruleId ver with
    | error e' =>
      have he' : e' = .versionConflict := by
        simp only [incrementVoucherUsage] at hinc
        split at hinc
        · cases hinc
        · cases hinc
          rfl
      refine ⟨fun _ => ?_, fun _ => ?_, fun hnone => ?_⟩
      · simp [voucherTxCommit, hinc]
      · simp [voucherTxCommit, hinc, he']
      · simp [voucherTxCommit, hinc] at hnone
    | ok store' =>
      refine ⟨fun hsome => ?_, fun hnotany => ?_, fun _ => ?_⟩
      · simp [voucherTxCommit, hinc] at hsome
      · exfalso
        simp [incrementVoucherUsage, hnotany] at hinc
      · exact ⟨store', rfl, by simp [voucherTxCommit, hinc]⟩
  · intro order code amount store ruleId ver
    cases hinc : incrementPromotionUsage store ruleId ver with
    | error e' =>
      have he' : e' = .versionConflict := by
        simp only [incrementPromotionUsage] at hinc
        split at hinc
        · cases hinc
        · cases hinc
          rfl
      refine ⟨fun _ => ?_, fun _ => ?_, fun hnone => ?_⟩
      · simp [promotionTxCommit, hinc]
      · simp [promotionTxCommit, hinc, he']
      · simp [promotionTxCommit, hinc] at hnone
    | ok store' =>
      refine ⟨fun hsome => ?_, fun hnotany => ?_, fun _ => ?_⟩
      · simp [promotionTxCommit, hinc] at hsome
      · exfalso
        simp [incrementPromotionUsage, hnotany] at hinc
      · exact ⟨store', rfl, by simp [promotionTxCommit, hinc]⟩

theorem c1_all_or_nothing_witness :
    (applyVoucherStep 0 "alice" "DEAD" c7State).1 = c7State ∧
    (voucherTxCommit bookOrder "SAVE10" 5 [sampleVoucher] "v1" 99).1 =
      (bookOrder, [sampleVoucher]) :=
  ⟨c1_all_or_nothing.2.2.1 0 "alice" "DEAD" c7State
      (applyVoucherStep 0 "alice" "DEAD" c7State).1 ApiError.inactive rfl,
   (c1_all_or_nothing.1 bookOrder "SAVE10" 5 [sampleVoucher] "v1" 99).1 rfl⟩

theorem enforceDiscountCap_ok {S C D amt : Money}
    (h : enforceDiscountCap S C D = .ok amt) :
    C + amt ≤ S * (1/2) ∧ (0 ≤ D → 0 ≤ amt) := by
  simp only [enforceDiscountCap] at h
  split at h
  case isTrue h1 =>
    split at h
    case isTrue h2 => cases h
    case isFalse h2 =>
      cases h
      exact ⟨by linarith, fun _ => by linarith [not_le.mp h2]⟩
  case isFalse h1 =>
    cases h
    exact ⟨le_of_not_lt h1, fun hD => hD⟩

theorem validateVoucher_ok_eq {v w : Voucher} {now : Int} {S : Money}
    (h : validateVoucher v now S = .ok w) : w = v := by
  simp only [validateVoucher] at h
  repeat' split at h
  all_goals simp_all

theorem validatePromotion_ok_eq {p w : Promotion} {now : Int}
    (h : validatePromotion p now = .ok w) : w = p := by
  simp only [validatePromotion] at h
  repeat' split at h
  all_goals simp_all

theorem calculateVoucherDiscount_nonneg {voucher : Voucher} {S : Money}
    (hv : 0 ≤ voucher.discountValue) (hS : 0 ≤ S) :
    0 ≤ calculateVoucherDiscount voucher S := by
  unfold calculateVoucherDiscount
  cases voucher.discountType with
  | PERCENTAGE => positivity
  | FIXED => exact le_min hv hS

theorem calculatePromotionDiscount_nonneg {promotion : Promotion}
    {eligible : List OrderItem}
    (hp : 0 ≤ promotion.discountValue)
    (hitems : ∀ item ∈ eligible, 0 ≤ item.unitPrice) :
    0 ≤ calculatePromotionDiscount promotion eligible := by
  cases hdt : promotion.discountType with
  | PERCENTAGE =>
    simp only [calculatePromotionDiscount, hdt]
    rw [foldl_add_eq, zero_add]
    have hsum : 0 ≤ (eligible.map fun item => item.unitPrice * (item.quantity : ℚ)).sum := by
      apply List.sum_nonneg
      intro x hx
      obtain ⟨item, hmem, rfl⟩ := List.mem_map.mp hx
      have := hitems item hmem
      positivity
    positivity
  | FIXED =>
    simp only [calculatePromotionDiscount, hdt]
    rw [foldl_add_eq, zero_add]
    apply List.sum_nonneg
    intro x hx
    obtain ⟨item, hmem, rfl⟩ := List.mem_map.mp hx
    have h1 := hitems item hmem
    have h2 : (0 : ℚ) ≤ (item.quantity : ℚ) := by positivity
    exact le_min (by positivity) (by positivity)

theorem checkEligibility_subset {promotion : Promotion} {items : List OrderItem} :
    ∀ item ∈ checkEligibility promotion items, item ∈ items := by
  intro item hmem
  exact List.mem_of_mem_filter hmem

theorem voucherTxCommit_ok {order order' : Order} {code : String} {amount : Money}
    {store store'' : List Voucher} {ruleId : String} {ver : Nat}
    (h : voucherTxCommit order code amount store ruleId ver = ((order', store''), none)) :
    order' = { order with
      discounts := order.discounts ++
        [{ discountType := .VOUCHER, discountCode := code,
           discountAmount := toFixed2 amount }],
      totalDiscount := toFixed2 (order.totalDiscount + amount),
      finalTotal := toFixed2 (order.subtotal - (order.totalDiscount + amount)) } := by
  simp only [voucherTxCommit] at h
  split at h
  · simp_all
  · rw [Prod.mk.injEq, Prod.mk.injEq] at h
    exact h.1.1.symm

theorem promotionTxCommit_ok {order order' : Order} {code : String} {amount : Money}
    {store store'' : List Promotion} {ruleId : String} {ver : Nat}
    (h : promotionTxCommit order code amount store ruleId ver = ((order', store''), none)) :
    order' = { order with
      discounts := order.discounts ++
        [{ discountType := .PROMOTION, discountCode := code,
           discountAmount := toFixed2 amount }],
      totalDiscount := toFixed2 (order.totalDiscount + amount),
      finalTotal := toFixed2 (order.subtotal - (order.totalDiscount + amount)) } := by
  simp only [promotionTxCommit] at h
  split at h
  · simp_all
  · rw [Prod.mk.injEq, Prod.mk.injEq] at h
    exact h.1.1.symm

theorem incrementVoucherUsage_values {store store' : List Voucher} {id : String}
    {ver : Nat} (h : incrementVoucherUsage store id ver = .ok store')
    (hv : ∀ v ∈ store, 0 ≤ v.discountValue) : ∀ v ∈ store', 0 ≤ v.discountValue := by
  simp only [incrementVoucherUsage] at h
  split at h
  · cases h
    intro v' hv'
    obtain ⟨v, hvmem, rfl⟩ := List.mem_map.mp hv'
    by_cases hid : (v.id == id && v.version == ver) = true <;>
      simp [hid] <;> exact hv v hvmem
  · cases h

theorem incrementPromotionUsage_values {store store' : List Promotion} {id : String}
    {ver : Nat} (h : incrementPromotionUsage store id ver = .ok store')
    (hp : ∀ p ∈ store, 0 ≤ p.discountValue) : ∀ p ∈ store', 0 ≤ p.discountValue := by
  simp only [incrementPromotionUsage] at h
  split at h
  · cases h
    intro p' hp'
    obtain ⟨p, hpmem, rfl⟩ := List.mem_map.mp hp'
    by_cases hid : (p.id == id && p.version == ver) = true <;>
      simp [hid] <;> exact hp p hpmem
  · cases h

theorem decrementVoucherUsage_values {store store' : List Voucher} {id : String}
    (h : decrementVoucherUsage store id = .ok store')
    (hv : ∀ v ∈ store, 0 ≤ v.discountValue) : ∀ v ∈ store', 0 ≤ v.discountValue := by
  simp only [decrementVoucherUsage] at h
  split at h
  · cases h
  · split at h
    · cases h
      exact hv
    · cases h
      intro v' hv'
      obtain ⟨v, hvmem, rfl⟩ := List.mem_map.mp hv'
      by_cases hid : (v.id == id) = true <;> simp [hid] <;> exact hv v hvmem

theorem decrementPromotionUsage_values {store store' : List Promotion} {id : String}
    (h : decrementPromotionUsage store id = .ok store')
    (hp : ∀ p ∈ store, 0 ≤ p.discountValue) : ∀ p ∈ store', 0 ≤ p.discountValue := by
  simp only [decrementPromotionUsage] at h
  split at h
  · cases h
  · split at h
    · cases h
      exact hp
    · cases h
      intro p' hp'
      obtain ⟨p, hpmem, rfl⟩ := List.mem_map.mp hp'
      by_cases hid : (p.id == id) = true <;> simp [hid] <;> exact hp p hpmem

/-- The order/store invariant maintained by order creation and by the
successful apply and remove steps: the running total is the exact sum of the
stored discount records, stays within half a cent of the 50% cap (the
rounding at persistence can overshoot the cap by at most `1/200`), and the
stored final total is within one cent above `subtotal − totalDiscount`. -/
structure Inv (s : AppState) : Prop where
  subtotal_cents : IsCents s.order.subtotal
  subtotal_nonneg : 0 ≤ s.order.subtotal
  total_cents : IsCents s.order.totalDiscount
  total_sum : s.order.totalDiscount =
    (s.order.discounts.map OrderDiscount.discountAmount).sum
  rec_cents : ∀ d ∈ s.order.discounts, IsCents d.discountAmount
  rec_nonneg : ∀ d ∈ s.order.discounts, 0 ≤ d.discountAmount
  total_cap : s.order.totalDiscount ≤ s.order.subtotal * (1/2) + 1/200
  final_lower : s.order.subtotal - s.order.totalDiscount ≤ s.order.finalTotal
  final_upper : s.order.finalTotal ≤ s.order.subtotal - s.order.totalDiscount + 1/100
  items_nonneg : ∀ item ∈ s.order.items, 0 ≤ item.unitPrice
  vouchers_nonneg : ∀ v ∈ s.vouchers, 0 ≤ v.discountValue
  promotions_nonneg : ∀ p ∈ s.promotions, 0 ≤ p.discountValue

/-- States reachable from `s₀` by successful discount applications and
removals (the operation sequences claim C3 quantifies over). -/
inductive Reachable : AppState → AppState → Prop
  | refl (s : AppState) : Reachable s s
  | applyVoucher {s₀ s s' : AppState} (now : Int) (customerId code : String)
      (hs : Reachable s₀ s)
      (h : applyVoucherStep now customerId code s = (s', none)) : Reachable s₀ s'
  | applyPromotion {s₀ s s' : AppState} (now : Int) (customerId code : String)
      (hs : Reachable s₀ s)
      (h : applyPromotionStep now customerId code s = (s', none)) : Reachable s₀ s'
  | removeDiscount {s₀ s s' : AppState} (customerId code : String)
      (hs : Reachable s₀ s)
      (h : removeDiscountStep customerId code s = (s', none)) : Reachable s₀ s'

theorem createOrder_inv (customerId : String) (items : List OrderItem)
    (vouchers : List Voucher) (promotions : List Promotion)
    (hitems : ∀ item ∈ items, 0 ≤ item.unitPrice)
    (hv : ∀ v ∈ vouchers, 0 ≤ v.discountValue)
    (hp : ∀ p ∈ promotions, 0 ≤ p.discountValue) :
    Inv { order := createOrder customerId items,
          vouchers := vouchers, promotions := promotions } := by
  have hsub : 0 ≤ items.foldl (fun sum item => sum + item.unitPrice * (item.quantity : ℚ)) 0 := by
    rw [foldl_add_eq, zero_add]
    apply List.sum_nonneg
    intro x hx
    obtain ⟨item, hmem, rfl⟩ := List.mem_map.mp hx
    have := hitems item hmem
    positivity
  have hS : 0 ≤ toFixed2 (items.foldl (fun sum item => sum + item.unitPrice * (item.quantity : ℚ)) 0) :=
    toFixed2_nonneg hsub
  refine ⟨toFixed2_isCents _, hS, isCents_zero, by simp [createOrder], ?_, ?_, ?_, ?_, ?_, ?_, hv, hp⟩
  · intro d hd
    simp [createOrder] at hd
  · intro d hd
    simp [createOrder] at hd
  · simp only [createOrder]
    linarith
  · simp only [createOrder]
    linarith
  · simp only [createOrder]
    linarith
  · intro item hmem
    simp only [createOrder, List.mem_map] at hmem
    obtain ⟨item₀, hmem₀, rfl⟩ := hmem
    exact toFixed2_nonneg (hitems item₀ hmem₀)

theorem voucherTxCommit_ok_store {order order' : Order} {code : String} {amount : Money}
    {store store'' : List Voucher} {ruleId : String} {ver : Nat}
    (h : voucherTxCommit order code amount store ruleId ver = ((order', store''), none)) :
    incrementVoucherUsage store ruleId ver = .ok store'' := by
  simp only [voucherTxCommit] at h
  split at h
  · simp_all
  · next store3 heq =>
    rw [Prod.mk.injEq, Prod.mk.injEq] at h
    rw [heq, h.1.2]

theorem promotionTxCommit_ok_store {order order' : Order} {code : String} {amount : Money}
    {store store'' : List Promotion} {ruleId : String} {ver : Nat}
    (h : promotionTxCommit order code amount store ruleId ver = ((order', store''), none)) :
    incrementPromotionUsage store ruleId ver = .ok store'' := by
  simp only [promotionTxCommit] at h
  split at h
  · simp_all
  · next store3 heq =>
    rw [Prod.mk.injEq, Prod.mk.injEq] at h
    rw [heq, h.1.2]

theorem find?_eraseP_sum {l : List OrderDiscount} {d : OrderDiscount}
    {p : OrderDiscount → Bool} (h : l.find? p = some d) :
    ((l.eraseP p).map OrderDiscount.discountAmount).sum =
      (l.map OrderDiscount.discountAmount).sum - d.discountAmount := by
  induction l with
  | nil => cases h
  | cons x t ih =>
    by_cases hx : p x = true
    · rw [List.find?_cons_of_pos _ hx] at h
      cases h
      rw [List.eraseP_cons_of_pos hx]
      simp
    · rw [List.find?_cons_of_neg _ hx] at h
      rw [List.eraseP_cons_of_neg hx]
      simp only [List.map_cons, List.sum_cons, ih h]
      ring

theorem applyVoucherStep_preserves {now : Int} {customerId code : String}
    {s s' : AppState} (hInv : Inv s)
    (h : applyVoucherStep now customerId code s = (s', none)) : Inv s' := by
  simp only [applyVoucherStep] at h
  split at h
  · simp at h
  split at h
  · simp at h
  split at h
  · simp at h
  split at h
  · simp at h
  next voucher hfind =>
  split at h
  · simp at h
  next w hval =>
  split at h
  · simp at h
  next amt hcap =>
  split at h
  · simp at h
  next pr order' vouchers' hcommit =>
  have hs' : s' = { order := order', vouchers := vouchers', promotions := s.promotions } := by
    rw [Prod.mk.injEq] at h
    exact h.1.symm
  subst hs'
  have hw : w = voucher := validateVoucher_ok_eq hval
  subst hw
  have hmem : w ∈ s.vouchers := by
    simp only [findVoucher] at hfind
    exact List.mem_of_find?_eq_some hfind
  have horder : order' = { s.order with
      discounts := s.order.discounts ++
        [{ discountType := .VOUCHER, discountCode := w.code,
           discountAmount := toFixed2 amt }],
      totalDiscount := toFixed2 (s.order.totalDiscount + amt),
      finalTotal := toFixed2 (s.order.subtotal - (s.order.totalDiscount + amt)) } :=
    voucherTxCommit_ok hcommit
  have hstore : incrementVoucherUsage s.vouchers w.id w.version = .ok vouchers' :=
    voucherTxCommit_ok_store hcommit
  subst horder
  have hDnn : 0 ≤ calculateVoucherDiscount w s.order.subtotal :=
    calculateVoucherDiscount_nonneg (hInv.vouchers_nonneg w hmem) hInv.subtotal_nonneg
  obtain ⟨hcaple, hamtnn'⟩ := enforceDiscountCap_ok hcap
  have hamtnn : 0 ≤ amt := hamtnn' hDnn
  have hCc : IsCents s.order.totalDiscount := hInv.total_cents
  have hSc : IsCents s.order.subtotal := hInv.subtotal_cents
  have htot : toFixed2 (s.order.totalDiscount + amt) =
      s.order.totalDiscount + toFixed2 amt := toFixed2_cents_add hCc amt
  have hfin : toFixed2 (s.order.subtotal - (s.order.totalDiscount + amt)) =
      (s.order.subtotal - s.order.totalDiscount) + toFixed2 (-amt) := by
    have harg : s.order.subtotal - (s.order.totalDiscount + amt) =
        (s.order.subtotal - s.order.totalDiscount) + (-amt) := by ring
    rw [harg, toFixed2_cents_add (hSc.sub hCc) (-amt)]
  have hneg := toFixed2_add_neg amt
  have hle := toFixed2_le (s.order.totalDiscount + amt)
  refine ⟨hSc, hInv.subtotal_nonneg, toFixed2_isCents _, ?_, ?_, ?_, ?_, ?_, ?_,
    hInv.items_nonneg, incrementVoucherUsage_values hstore hInv.vouchers_nonneg,
    hInv.promotions_nonneg⟩
  · show toFixed2 (s.order.totalDiscount + amt) =
      ((s.order.discounts ++
        [({ discountType := .VOUCHER, discountCode := w.code,
            discountAmount := toFixed2 amt } : OrderDiscount)]).map
          OrderDiscount.discountAmount).sum
    rw [htot, List.map_append, List.sum_append, hInv.total_sum]
    simp
  · intro d hd
    rcases List.mem_append.mp hd with hold | hnew
    · exact hInv.rec_cents d hold
    · simp only [List.mem_singleton] at hnew
      subst hnew
      exact toFixed2_isCents _
  · intro d hd
    rcases List.mem_append.mp hd with hold | hnew
    · exact hInv.rec_nonneg d hold
    · simp only [List.mem_singleton] at hnew
      subst hnew
      exact toFixed2_nonneg hamtnn
  · show toFixed2 (s.order.totalDiscount + amt) ≤ s.order.subtotal * (1/2) + 1/200
    linarith
  · show s.order.subtotal - toFixed2 (s.order.totalDiscount + amt) ≤
      toFixed2 (s.order.subtotal - (s.order.totalDiscount + amt))
    rw [htot, hfin]
    linarith [hneg.1]
  · show toFixed2 (s.order.subtotal - (s.order.totalDiscount + amt)) ≤
      s.order.subtotal - toFixed2 (s.order.totalDiscount + amt) + 1/100
    rw [htot, hfin]
    linarith [hneg.2]

theorem applyPromotionStep_preserves {now : Int} {customerId code : String}
    {s s' : AppState} (hInv : Inv s)
    (h : applyPromotionStep now customerId code s = (s', none)) : Inv s' := by
  simp only [applyPromotionStep] at h
  split at h
  · simp at h
  split at h
  · simp at h
  split at h
  · simp at h
  split at h
  · simp at h
  next promotion hfind =>
  split at h
  · simp at h
  next w hval =>
  split at h
  · simp at h
  split at h
  · simp at h
  next amt hcap =>
  split at h
  · simp at h
  next pr order' promotions' hcommit =>
  have hs' : s' = { order := order', vouchers := s.vouchers, promotions := promotions' } := by
    rw [Prod.mk.injEq] at h
    exact h.1.symm
  subst hs'
  have hw : w = promotion := validatePromotion_ok_eq hval
  subst hw
  have hmem : w ∈ s.promotions := by
    simp only [findPromotion] at hfind
    exact List.mem_of_find?_eq_some hfind
  have horder : order' = { s.order with
      discounts := s.order.discounts ++
        [{ discountType := .PROMOTION, discountCode := w.code,
           discountAmount := toFixed2 amt }],
      totalDiscount := toFixed2 (s.order.totalDiscount + amt),
      finalTotal := toFixed2 (s.order.subtotal - (s.order.totalDiscount + amt)) } :=
    promotionTxCommit_ok hcommit
  have hstore : incrementPromotionUsage s.promotions w.id w.version = .ok promotions' :=
    promotionTxCommit_ok_store hcommit
  subst horder
  have hDnn : 0 ≤ calculatePromotionDiscount w (checkEligibility w s.order.items) :=
    calculatePromotionDiscount_nonneg (hInv.promotions_nonneg w hmem)
      (fun item hitem => hInv.items_nonneg item (checkEligibility_subset item hitem))
  obtain ⟨hcaple, hamtnn'⟩ := enforceDiscountCap_ok hcap
  have hamtnn : 0 ≤ amt := hamtnn' hDnn
  have hCc : IsCents s.order.totalDiscount := hInv.total_cents
  have hSc : IsCents s.order.subtotal := hInv.subtotal_cents
  have htot : toFixed2 (s.order.totalDiscount + amt) =
      s.order.totalDiscount + toFixed2 amt := toFixed2_cents_add hCc amt
  have hfin : toFixed2 (s.order.subtotal - (s.order.totalDiscount + amt)) =
      (s.order.subtotal - s.order.totalDiscount) + toFixed2 (-amt) := by
    have harg : s.order.subtotal - (s.order.totalDiscount + amt) =
        (s.order.subtotal - s.order.totalDiscount) + (-amt) := by ring
    rw [harg, toFixed2_cents_add (hSc.sub hCc) (-amt)]
  have hneg := toFixed2_add_neg amt
  have hle := toFixed2_le (s.order.totalDiscount + amt)
  refine ⟨hSc, hInv.subtotal_nonneg, toFixed2_isCents _, ?_, ?_, ?_, ?_, ?_, ?_,
    hInv.items_nonneg, hInv.vouchers_nonneg,
    incrementPromotionUsage_values hstore hInv.promotions_nonneg⟩
  · show toFixed2 (s.order.totalDiscount + amt) =
      ((s.order.discounts ++
        [({ discountType := .PROMOTION, discountCode := w.code,
            discountAmount := toFixed2 amt } : OrderDiscount)]).map
          OrderDiscount.discountAmount).sum
    rw [htot, List.map_append, List.sum_append, hInv.total_sum]
    simp
  · intro d hd
    rcases List.mem_append.mp hd with hold | hnew
    · exact hInv.rec_cents d hold
    · simp only [List.mem_singleton] at hnew
      subst hnew
      exact toFixed2_isCents _
  · intro d hd
    rcases List.mem_append.mp hd with hold | hnew
    · exact hInv.rec_nonneg d hold
    · simp only [List.mem_singleton] at hnew
      subst hnew
      exact toFixed2_nonneg hamtnn
  · show toFixed2 (s.order.totalDiscount + amt) ≤ s.order.subtotal * (1/2) + 1/200
    linarith
  · show s.order.subtotal - toFixed2 (s.order.totalDiscount + amt) ≤
      toFixed2 (s.order.subtotal - (s.order.totalDiscount + amt))
    rw [htot, hfin]
    linarith [hneg.1]
  · show toFixed2 (s.order.subtotal - (s.order.totalDiscount + amt)) ≤
      s.order.subtotal - toFixed2 (s.order.totalDiscount + amt) + 1/100
    rw [htot, hfin]
    linarith [hneg.2]

theorem removeDiscountStep_preserves {customerId code : String}
    {s s' : AppState} (hInv : Inv s)
    (h : removeDiscountStep customerId code s = (s', none)) : Inv s' := by
  simp only [removeDiscountStep] at h
  split at h
  · simp at h
  split at h
  · simp at h
  split at h
  · simp at h
  next discount hfind =>
  have hd_mem : discount ∈ s.order.discounts := List.mem_of_find?_eq_some hfind
  have hac : IsCents discount.discountAmount := hInv.rec_cents discount hd_mem
  have hann : 0 ≤ discount.discountAmount := hInv.rec_nonneg discount hd_mem
  have hCc : IsCents s.order.totalDiscount := hInv.total_cents
  have hSc : IsCents s.order.subtotal := hInv.subtotal_cents
  have htot : toFixed2 (s.order.totalDiscount - discount.discountAmount) =
      s.order.totalDiscount - discount.discountAmount :=
    toFixed2_eq_self (hCc.sub hac)
  have hfin : toFixed2 (s.order.subtotal -
      (s.order.totalDiscount - discount.discountAmount)) =
      s.order.subtotal - (s.order.totalDiscount - discount.discountAmount) :=
    toFixed2_eq_self (hSc.sub (hCc.sub hac))
  have hsum := find?_eraseP_sum hfind
  split at h
  · -- VOUCHER branch
    split at h
    · simp at h
    next voucher hfv =>
    split at h
    · simp at h
    next vouchers' hdec =>
    rw [Prod.mk.injEq] at h
    obtain ⟨h1, -⟩ := h
    rw [← h1]
    refine ⟨hSc, hInv.subtotal_nonneg, toFixed2_isCents _, ?_, ?_, ?_, ?_, ?_, ?_,
      hInv.items_nonneg, decrementVoucherUsage_values hdec hInv.vouchers_nonneg,
      hInv.promotions_nonneg⟩
    · show toFixed2 (s.order.totalDiscount - discount.discountAmount) =
        ((s.order.discounts.eraseP (fun d => d.discountCode == upper code)).map
          OrderDiscount.discountAmount).sum
      rw [htot, hsum, ← hInv.total_sum]
    · intro d hd
      exact hInv.rec_cents d ((List.eraseP_sublist _).subset hd)
    · intro d hd
      exact hInv.rec_nonneg d ((List.eraseP_sublist _).subset hd)
    · show toFixed2 (s.order.totalDiscount - discount.discountAmount) ≤
        s.order.subtotal * (1/2) + 1/200
      rw [htot]
      linarith [hInv.total_cap]
    · show s.order.subtotal - toFixed2 (s.order.totalDiscount - discount.discountAmount) ≤
        toFixed2 (s.order.subtotal - (s.order.totalDiscount - discount.discountAmount))
      rw [htot, hfin]
    · show toFixed2 (s.order.subtotal - (s.order.totalDiscount - discount.discountAmount)) ≤
        s.order.subtotal - toFixed2 (s.order.totalDiscount - discount.discountAmount) + 1/100
      rw [htot, hfin]
      linarith
  · -- PROMOTION branch
    split at h
    · simp at h
    next promotion hfp =>
    split at h
    · simp at h
    next promotions' hdec =>
    rw [Prod.mk.injEq] at h
    obtain ⟨h1, -⟩ := h
    rw [← h1]
    refine ⟨hSc, hInv.subtotal_nonneg, toFixed2_isCents _, ?_, ?_, ?_, ?_, ?_, ?_,
      hInv.items_nonneg, hInv.vouchers_nonneg,
      decrementPromotionUsage_values hdec hInv.promotions_nonneg⟩
    · show toFixed2 (s.order.totalDiscount - discount.discountAmount) =
        ((s.order.discounts.eraseP (fun d => d.discountCode == upper code)).map
          OrderDiscount.discountAmount).sum
      rw [htot, hsum, ← hInv.total_sum]
    · intro d hd
      exact hInv.rec_cents d ((List.eraseP_sublist _).subset hd)
    · intro d hd
      exact hInv.rec_nonneg d ((List.eraseP_sublist _).subset hd)
    · show toFixed2 (s.order.totalDiscount - discount.discountAmount) ≤
        s.order.subtotal * (1/2) + 1/200
      rw [htot]
      linarith [hInv.total_cap]
    · show s.order.subtotal - toFixed2 (s.order.totalDiscount - discount.discountAmount) ≤
        toFixed2 (s.order.subtotal - (s.order.totalDiscount - discount.discountAmount))
      rw [htot, hfin]
    · show toFixed2 (s.order.subtotal - (s.order.totalDiscount - discount.discountAmount)) ≤
        s.order.subtotal - toFixed2 (s.order.totalDiscount - discount.discountAmount) + 1/100
      rw [htot, hfin]
      linarith

theorem reachable_inv {s₀ s : AppState} (hInv : Inv s₀) (h : Reachable s₀ s) : Inv s := by
  induction h with
  | refl => exact hInv
  | applyVoucher _ _ _ _ hstep ih => exact applyVoucherStep_preserves ih hstep
  | applyPromotion _ _ _ _ hstep ih => exact applyPromotionStep_preserves ih hstep
  | removeDiscount _ _ _ hstep ih => exact removeDiscountStep_preserves ih hstep

/-- C3 (amended): after any sequence of successful apply/remove operations
from a well-formed initial state, `totalDiscount` equals the sum of the
stored `OrderDiscount` amounts exactly; the claim's other two equations hold
only up to persistence rounding: `totalDiscount` may exceed `0.5 × subtotal`
by at most half a cent, and `finalTotal` lies within one cent above
`subtotal − totalDiscount` (the counterexample below realizes both gaps). -/
theorem c3_order_totals (s₀ s : AppState) (hInv : Inv s₀) (h : Reachable s₀ s) :
    s.order.totalDiscount = (s.order.discounts.map OrderDiscount.discountAmount).sum ∧
    s.order.totalDiscount ≤ s.order.subtotal * (1/2) + 1/200 ∧
    s.order.subtotal - s.order.totalDiscount ≤ s.order.finalTotal ∧
    s.order.finalTotal ≤ s.order.subtotal - s.order.totalDiscount + 1/100 :=
  let hs := reachable_inv hInv h
  ⟨hs.total_sum, hs.total_cap, hs.final_lower, hs.final_upper⟩

/-- A voucher worth 50% of the subtotal. -/
def halfVoucher : Voucher :=
  { id := "vh", code := "HALF", discountType := .PERCENTAGE, discountValue := 50,
    expirationDate := 1000, usageLimit := 5, currentUsage := 0,
    minOrderValue := none, isActive := true, version := 1, deletedAt := none }

/-- An item priced at an odd number of cents (100.01). -/
def oddItem : OrderItem :=
  { productId := "PROD-X", productName := "Widget", category := "Misc",
    unitPrice := 10001/100, quantity := 1 }

/-- The order `createOrder "alice" [oddItem]` produces (see the
counterexample's first conjunct). -/
def oddOrder : Order :=
  { customerId := "alice", subtotal := 10001/100, totalDiscount := 0,
    finalTotal := 10001/100, status := .PENDING, items := [oddItem], discounts := [] }

/-- The order record the applied discount leaves behind. -/
def oddOrderAfter : Order :=
  { customerId := "alice", subtotal := 10001/100, totalDiscount := 5001/100,
    finalTotal := 5001/100, status := .PENDING, items := [oddItem],
    discounts := [{ discountType := .VOUCHER, discountCode := "HALF",
                    discountAmount := 5001/100 }] }

/-- The odd-cent order with the 50% voucher available. -/
def c3State : AppState :=
  { order := oddOrder, vouchers := [halfVoucher], promotions := [] }

/-- The odd-cent state as created through `createOrder`. -/
def c3Start : AppState :=
  { order := createOrder "alice" [oddItem], vouchers := [halfVoucher], promotions := [] }

/-- The state after applying the 50% voucher to the odd-cent order. -/
def c3StateAfter : AppState :=
  { order := oddOrderAfter,
    vouchers := [{ halfVoucher with currentUsage := 1, version := 2 }],
    promotions := [] }

theorem c3_order_totals_witness :
    c3State.order.totalDiscount =
      (c3State.order.discounts.map OrderDiscount.discountAmount).sum ∧
    c3State.order.totalDiscount ≤ c3State.order.subtotal * (1/2) + 1/200 ∧
    c3State.order.subtotal - c3State.order.totalDiscount ≤ c3State.order.finalTotal ∧
    c3State.order.finalTotal ≤
      c3State.order.subtotal - c3State.order.totalDiscount + 1/100 := by
  have hcreate : c3Start = c3State := by
    simp only [c3Start, c3State, createOrder, oddOrder, oddItem, AppState.mk.injEq,
      Order.mk.injEq]
    norm_num [toFixed2]
  have h := c3_order_totals c3Start c3State
    (createOrder_inv "alice" [oddItem] [halfVoucher] []
      (by intro item hmem
          simp only [List.mem_singleton] at hmem
          subst hmem
          norm_num [oddItem])
      (by intro v hmem
          simp only [List.mem_singleton] at hmem
          subst hmem
          norm_num [halfVoucher])
      (by intro p hmem
          simp at hmem))
    (hcreate ▸ Reachable.refl c3Start)
  exact h

/-- C3 counterexample: applying the 50% voucher to the order on a 100.01
item succeeds and stores `totalDiscount = 50.01 > 50.005 = 0.5 × subtotal`,
with `finalTotal = 50.01 ≠ 50.00 = subtotal − totalDiscount`: the exact
claimed relations fail at the half-cent because of rounding at
persistence. -/
theorem c3_cap_counterexample :
    createOrder "alice" [oddItem] = oddOrder ∧
    applyVoucherStep 0 "alice" "HALF" c3State = (c3StateAfter, none) ∧
    ¬ (c3StateAfter.order.totalDiscount ≤ c3StateAfter.order.subtotal * (1/2)) ∧
    c3StateAfter.order.finalTotal ≠
      c3StateAfter.order.subtotal - c3StateAfter.order.totalDiscount := by
  have hfindv : findVoucher [halfVoucher] "HALF" = some halfVoucher := rfl
  have hvalid : validateVoucher halfVoucher 0 oddOrder.subtotal = .ok halfVoucher := rfl
  have hD : calculateVoucherDiscount halfVoucher oddOrder.subtotal = 10001/200 := by
    norm_num [calculateVoucherDiscount, halfVoucher, oddOrder]
  have hcap : enforceDiscountCap oddOrder.subtotal oddOrder.totalDiscount (10001/200) =
      .ok (10001/200) := by
    norm_num [enforceDiscountCap, oddOrder]
  have hinc : incrementVoucherUsage [halfVoucher] halfVoucher.id halfVoucher.version =
      .ok [{ halfVoucher with currentUsage := 1, version := 2 }] := rfl
  have hcommit : voucherTxCommit oddOrder halfVoucher.code (10001/200) [halfVoucher]
      halfVoucher.id halfVoucher.version =
      ((c3StateAfter.order, c3StateAfter.vouchers), none) := by
    simp only [voucherTxCommit, hinc]
    simp only [c3StateAfter, oddOrderAfter, oddOrder, halfVoucher, Prod.mk.injEq,
      Order.mk.injEq, OrderDiscount.mk.injEq]
    norm_num [toFixed2]
  have hcreate : createOrder "alice" [oddItem] = oddOrder := by
    simp only [createOrder, oddOrder, oddItem, Order.mk.injEq]
    norm_num [toFixed2]
  refine ⟨hcreate, ?_, ?_, ?_⟩
  · simp only [applyVoucherStep, c3State]
    rw [if_neg (by simp [oddOrder]), if_neg (by simp [oddOrder]),
      if_neg (by simp [oddOrder])]
    rw [hfindv]
    dsimp only
    rw [hvalid]
    dsimp only
    rw [hD, hcap]
    dsimp only
    rw [hcommit]
    simp [c3StateAfter]
  · show ¬ ((5001/100 : ℚ) ≤ (10001/100) * (1/2))
    norm_num
  · show (5001/100 : ℚ) ≠ 10001/100 - 5001/100
    norm_num
